import Mathlib

/-!
Verification development for the gemkit-cli Agent Office core:
a shallow embedding of the change watcher's diff engine
(`src/domains/agent-office/file-watcher.ts`), the event bus
(`event-emitter.ts`), the agent state machine (`state-machine.ts`),
the session-to-projection mapper (`session-bridge.ts` / `types.ts`)
and the broadcast server's HTTP request handler
(`renderer/web/server.ts`).

Conventions of the embedding:
* JavaScript numbers that hold epoch milliseconds are modelled as `Int`;
  `Date.now()` and `new Date(isoString).getTime()` are modelled by passing
  the already-parsed millisecond value explicitly (the ISO-8601 string
  parse itself is elided; an absent/empty date string is `none`).
* JavaScript `string` is `String`, `x | null`/optional fields are `Option`.
* The truthiness of JavaScript `a || b` on strings (where `""` is falsy)
  is modelled by `jsOr`; `a ?? b` keeps `some ""`.
* `Array` is `List`; a JavaScript `Map` built from entries is modelled by
  lookup from the rear (`new Map(entries)` keeps the last entry per key).
-/

namespace AgentOffice

/-! Character-list string primitives.  All string scanning is done by
structural recursion over `String.data`, so that every definition
evaluates by kernel reduction on concrete inputs. -/

/-- Does `pre` begin `cs`? (`String.startsWith` on char lists.) -/
def isPrefixList (pre cs : List Char) : Bool :=
  match pre, cs with
  | [], _ => true
  | _ :: _, [] => false
  | a :: as, b :: bs => decide (a = b) && isPrefixList as bs

/-- Does `needle` occur as a contiguous run of `hay`? -/
def containsSub (needle hay : List Char) : Bool :=
  isPrefixList needle hay ||
    match hay with
    | [] => false
    | _ :: t => containsSub needle t

/-- Split on a single separator character (`String.splitOn` for a
one-character separator); always returns at least one piece. -/
def splitOnChar (sep : Char) : List Char → List (List Char)
  | [] => [[]]
  | c :: rest =>
      match splitOnChar sep rest with
      | [] => [[c]]
      | h :: t => if c = sep then [] :: h :: t else (c :: h) :: t

/-- Split a string on a one-character separator. -/
def strSplitOnChar (sep : Char) (s : String) : List String :=
  (splitOnChar sep s.data).map String.mk

/-- Join strings with a one-character separator. -/
def joinWithChar (sep : Char) : List String → String
  | [] => ""
  | [s] => s
  | s :: rest => s ++ String.mk [sep] ++ joinWithChar sep rest

/-- Embeds `String.startsWith`. -/
def strStartsWith (s pre : String) : Bool :=
  isPrefixList pre.data s.data

/-- Embeds `String.toLowerCase()` (ASCII-adequate). -/
def strToLower (s : String) : String :=
  String.mk (s.data.map Char.toLower)

/-- Embeds `String.slice(0, n)` / `String.take`. -/
def strTake (s : String) (n : Nat) : String :=
  String.mk (s.data.take n)

/-- JavaScript `s.includes(sub)` : substring containment test. -/
def jsIncludes (s sub : String) : Bool :=
  containsSub sub.data s.data

/-- JavaScript `a || b` on nullable strings: `""` and `null` fall through. -/
def jsOr (a b : Option String) : Option String :=
  match a with
  | some s => if s = "" then b else some s
  | none => b

/-- JavaScript `a ?? b` on nullable strings: only `null` falls through. -/
def jsNullish (a b : Option String) : Option String :=
  match a with
  | some s => some s
  | none => b

/-! ## Data model (`src/domains/session/writer.ts` interfaces) -/

/-- Lifecycle status of a session or agent (`'active' | 'completed' | 'failed'`). -/
inductive GkStatus
  | active
  | completed
  | failed
deriving DecidableEq, Repr

/-- Token usage counters (`TokenUsage`). -/
structure TokenUsage where
  input : Int
  output : Int
  cached : Int
  thoughts : Int
  tool : Int
  total : Int
deriving DecidableEq, Repr

/-- Injected context tracking (`InjectedContext`). -/
structure InjectedContext where
  skills : List String
  context : List String
deriving DecidableEq, Repr

/-- An agent record of a session file (`GkAgent`).  Date strings are
modelled by their epoch-millisecond parse (`none` = absent/empty). -/
structure GkAgent where
  gkSessionId : String
  parentGkSessionId : Option String
  agentType : String
  agentRole : String
  prompt : Option String
  tokenUsage : Option TokenUsage
  injected : Option InjectedContext
  startTime : Option Int
  endTime : Option Int
  status : GkStatus
deriving DecidableEq, Repr

/-- A session snapshot (`GkSession`), restricted to the fields the
agent-office core reads. -/
structure GkSession where
  gkSessionId : String
  projectDir : String
  activePlan : Option String
  appName : Option String
  agents : List GkAgent
deriving DecidableEq, Repr

/-- Embeds `agent.injected?.skills` with optional chaining, defaulted to `[]`. -/
def agentSkills (a : GkAgent) : List String :=
  match a.injected with
  | some inj => inj.skills
  | none => []

/-! ## Events (`types.ts`) -/

/-- Embeds `OfficeEventType` union. -/
inductive OfficeEventType
  | agent_idle
  | agent_working
  | skill_activated
  | handoff_start
  | handoff_complete
  | received_work
  | delivering
  | task_complete
  | session_complete
deriving DecidableEq, Repr

/-- Embeds `CharacterType` union. -/
inductive CharacterType
  | orchestrator
  | researcher
  | coder
  | planner
  | tester
  | designer
  | other
  | reviewer
  | artist
  | writer
  | manager
deriving DecidableEq, Repr

/-- Embeds `OfficeEvent` record. -/
structure OfficeEvent where
  type : OfficeEventType
  agentId : String
  targetAgentId : Option String
  skill : Option String
  message : String
  timestamp : Int
  characterType : Option CharacterType
deriving DecidableEq, Repr

/-! ## Role classification (`session-bridge.ts : getCharacterType`) -/

/-- Embeds `getCharacterType(role)`: keyword scan over the lower-cased role. -/
def getCharacterType (role : String) : CharacterType :=
  let r := strToLower role
  if jsIncludes r "main" then .orchestrator
  else if jsIncludes r "research" || jsIncludes r "scout" then .researcher
  else if jsIncludes r "code" || jsIncludes r "executor" || jsIncludes r "debug" then .coder
  else if jsIncludes r "plan" then .planner
  else if jsIncludes r "test" then .tester
  else if jsIncludes r "design" || jsIncludes r "ui" || jsIncludes r "ux"
         || jsIncludes r "artist" then .designer
  else if jsIncludes r "doc" || jsIncludes r "writer" then .writer
  else if jsIncludes r "manager" || jsIncludes r "git" then .manager
  else .other

/-! ## Diff engine (`file-watcher.ts : diffSessions` / `createEvent`) -/

/-- The `messages` table of `createEvent`; `skill` is the raw optional
`skill` argument (`skill || 'unknown'` in the template literal). -/
def eventMessage (t : OfficeEventType) (skill : Option String) : String :=
  match t with
  | .agent_idle => "Waiting for work"
  | .agent_working => "Working..."
  | .skill_activated =>
      "Activated skill: " ++ (match jsOr skill none with
                              | some s => s
                              | none => "unknown")
  | .handoff_start => "Passing work..."
  | .handoff_complete => "Handoff complete!"
  | .received_work => "Received work"
  | .delivering => "Delivering results..."
  | .task_complete => "Task complete!"
  | .session_complete => "All tasks completed"

/-- Embeds `createEvent(type, agent, timestamp, skill?)`. -/
def createEvent (t : OfficeEventType) (agent : GkAgent) (timestamp : Int)
    (skill : Option String) : OfficeEvent :=
  { type := t
    agentId := agent.gkSessionId
    targetAgentId := agent.parentGkSessionId
    skill := jsOr skill (jsOr (agentSkills agent).head? none)
    message := eventMessage t skill
    timestamp := timestamp
    characterType :=
      some (getCharacterType (if agent.agentRole = "" then "coder" else agent.agentRole)) }

/-- Embeds `new Map(prev.agents.map(a => [a.gkSessionId, a])).get(id)`:
the last entry per key wins, so look up from the rear. -/
def prevLookup (prev : GkSession) (id : String) : Option GkAgent :=
  prev.agents.reverse.find? (fun a => decide (a.gkSessionId = id))

/-- The events the `for (const agent of curr.agents)` loop body of
`diffSessions` pushes for one current agent. -/
def agentDiffEvents (look : String → Option GkAgent) (ts : Int)
    (agent : GkAgent) : List OfficeEvent :=
  match look agent.gkSessionId with
  | none =>
      createEvent .received_work agent ts none ::
      (if agentSkills agent ≠ [] then
        [createEvent .skill_activated agent ts (agentSkills agent).head?]
      else [])
  | some prevAgent =>
      (if prevAgent.status = .active ∧ agent.status = .completed then
        [createEvent .task_complete agent ts none,
         createEvent .delivering agent ts none]
      else []) ++
      ((agentSkills agent).filter
          (fun s => ¬ (agentSkills prevAgent).contains s)).map
        (fun s => createEvent .skill_activated agent ts (some s))

/-- The trailing `session_complete` event literal of `diffSessions`. -/
def sessionCompleteEvent (curr : GkSession) (ts : Int) : OfficeEvent :=
  { type := .session_complete
    agentId := curr.gkSessionId
    targetAgentId := none
    skill := none
    message := "All tasks completed"
    timestamp := ts
    characterType := none }

/-- The `session_complete` guard of `diffSessions`:
`allCompleted && wasActive && curr.agents.length > 0`. -/
def sessionJustCompleted (prev curr : GkSession) : Bool :=
  let allCompleted :=
    curr.agents.all (fun a => decide (a.status = .completed) || decide (a.status = .failed))
  let wasActive := prev.agents.any (fun a => decide (a.status = .active))
  allCompleted && wasActive && decide (curr.agents.length > 0)

/-- Embeds `diffSessions(prev, curr)`; the single `Date.now()` read at entry is
the explicit `ts` argument. -/
def diffSessions (ts : Int) (prev curr : GkSession) : List OfficeEvent :=
  let perAgent := curr.agents.flatMap (agentDiffEvents (prevLookup prev) ts)
  if sessionJustCompleted prev curr then
    perAgent ++ [sessionCompleteEvent curr ts]
  else
    perAgent

/-! ## Event bus history (`event-emitter.ts`) -/

/-- Embeds `MAX_HISTORY_SIZE`. -/
def MAX_HISTORY_SIZE : Nat := 1000

/-- The history update of `emit(event)`: push, then shift once if the
length exceeds `MAX_HISTORY_SIZE`. -/
def emitHistory (h : List OfficeEvent) (e : OfficeEvent) : List OfficeEvent :=
  let h' := h ++ [e]
  if h'.length > MAX_HISTORY_SIZE then h'.tail else h'

/-- The history after emitting a whole sequence of events on a fresh
`OfficeEventEmitter` (whose history starts empty). -/
def runEmits (es : List OfficeEvent) : List OfficeEvent :=
  es.foldl emitHistory []

/-- Embeds `replay(fromTimestamp)`: the history entries at or after the stamp. -/
def replayHistory (h : List OfficeEvent) (fromTimestamp : Int) : List OfficeEvent :=
  h.filter (fun e => decide (e.timestamp ≥ fromTimestamp))

/-! ## State machine (`state-machine.ts`) -/

/-- Embeds `AgentState` union. -/
inductive AgentState
  | idle
  | working
  | walking
  | delivering
  | receiving
deriving DecidableEq, Repr

/-- Embeds `VALID_TRANSITIONS` table. -/
def VALID_TRANSITIONS (s : AgentState) : List AgentState :=
  match s with
  | .idle => [.working, .walking, .receiving]
  | .working => [.idle, .delivering, .walking]
  | .walking => [.idle, .working, .delivering]
  | .delivering => [.idle, .walking]
  | .receiving => [.working, .idle]

/-- Embeds `isValidTransition(from, to)`. -/
def isValidTransition (src dst : AgentState) : Bool :=
  (VALID_TRANSITIONS src).contains dst

/-- The `stateMap` of `transitionAgent`: event type → candidate state
(`handoff_complete` and `session_complete` are unmapped). -/
def eventStateMap (t : OfficeEventType) : Option AgentState :=
  match t with
  | .agent_idle => some .idle
  | .agent_working => some .working
  | .skill_activated => some .working
  | .handoff_start => some .walking
  | .received_work => some .receiving
  | .delivering => some .delivering
  | .task_complete => some .idle
  | _ => none

/-- Embeds `OfficeAgent` view-state record (`types.ts`). -/
structure OfficeAgent where
  id : String
  agentType : String
  role : String
  characterType : Option CharacterType
  icon : String
  state : AgentState
  activeSkill : Option String
  progress : Int
  speechBubble : Option String
  hasFireEffect : Bool
  gkSessionId : String
  parentSessionId : Option String
deriving DecidableEq, Repr

/-- Embeds `transitionAgent(agent, event)`. -/
def transitionAgent (agent : OfficeAgent) (event : OfficeEvent) : OfficeAgent :=
  match eventStateMap event.type with
  | none => agent
  | some newState =>
      if isValidTransition agent.state newState then
        { agent with
          state := newState
          activeSkill := jsNullish event.skill agent.activeSkill
          hasFireEffect := decide (event.type = .skill_activated)
          speechBubble := jsOr (some event.message) none }
      else
        agent

/-! ## Watcher tick (`file-watcher.ts : loadSession`)

`loadSession` reads and parses the session file, computes the diff
against `previousSession`, commits the new snapshot, calls
`onSessionChange`, then calls `onEvent` per diff event (and `onError`
if the read or parse threw).  We model one tick as the pair of the new
`previousSession` value and the ordered list of callback invocations. -/

/-- One observable callback invocation of the watcher. -/
inductive WatcherCallback
  | sessionChange (s : GkSession)
  | officeEvent (e : OfficeEvent)
  | errorCb
deriving DecidableEq, Repr

/-- One `loadSession` tick: `parsed` is the result of
`JSON.parse(readFileSync(...))` (`none` = the read or parse threw). -/
def loadSessionTick (ts : Int) (prevSession : Option GkSession)
    (parsed : Option GkSession) : Option GkSession × List WatcherCallback :=
  match parsed with
  | none => (prevSession, [WatcherCallback.errorCb])
  | some session =>
      let events :=
        match prevSession with
        | some prev => diffSessions ts prev session
        | none => []
      (some session,
       WatcherCallback.sessionChange session :: events.map WatcherCallback.officeEvent)

/-! ## Icons (`icons.ts`) -/

/-- Embeds `ROLE_ICONS`: each regex `/kw1|kw2|.../i` is modelled as the list of
its lower-case alternatives, matched by case-insensitive containment. -/
def ROLE_ICONS : List (List String × String) :=
  [(["research", "search", "analyze"], "🔍"),
   (["code", "implement", "execute", "develop"], "💻"),
   (["plan", "architect"], "📋"),
   (["debug", "fix", "troubleshoot"], "🐛"),
   (["test", "qa", "quality"], "🧪"),
   (["design", "ui", "ux"], "🎨"),
   (["review", "audit", "check"], "✅"),
   (["doc", "write", "content"], "📝")]

/-- Embeds `DEFAULT_ICON`. -/
def DEFAULT_ICON : String := "🤖"

/-- Embeds `ORCHESTRATOR_ICON`. -/
def ORCHESTRATOR_ICON : String := "👑"

/-- Embeds `getIconForRole(role, isOrchestrator = false)`. -/
def getIconForRole (role : String) (isOrch : Bool := false) : String :=
  if isOrch then ORCHESTRATOR_ICON
  else
    match ROLE_ICONS.find? (fun p => p.1.any (fun kw => jsIncludes (strToLower role) kw)) with
    | some p => p.2
    | none => DEFAULT_ICON

/-- Embeds `\w` of the `formatDisplayName` regex. -/
def isWordChar (c : Char) : Bool := c.isAlphanum || c = '_'

/-- Upper-case every word character at a word boundary
(`.replace(/\b\w/g, c => c.toUpperCase())`); `prevWord` records whether
the previous character was a word character. -/
def capWordStarts (prevWord : Bool) : List Char → List Char
  | [] => []
  | c :: rest =>
      (if ¬ prevWord ∧ isWordChar c then c.toUpper else c) :: capWordStarts (isWordChar c) rest

/-- Embeds `formatDisplayName(role)`: hyphens to spaces, then capitalize the
first character of each word. -/
def formatDisplayName (role : String) : String :=
  let spaced := String.mk (role.data.map (fun c => if c = '-' then ' ' else c))
  String.mk (capWordStarts false spaced.data)

/-! ## Projection mapper (`session-bridge.ts`) -/

/-- Embeds `isOrchestrator(agent, session)`: three independent signals. -/
def isOrchestrator (agent : GkAgent) (session : GkSession) : Bool :=
  decide (agent.agentType = "Main Agent")
  || agent.parentGkSessionId.isNone
  || decide (agent.gkSessionId = session.gkSessionId)

/-- Embeds `mapStatusToState(status, hasActiveSkill)` (both arms of the `active`
conditional in the source are `'working'`). -/
def mapStatusToState (status : GkStatus) (hasActiveSkill : Bool) : AgentState :=
  match status with
  | .active => if hasActiveSkill then .working else .working
  | .completed => .idle
  | .failed => .idle

/-- Embeds `Math.round(n / d)` for `d > 0`, i.e. `⌊n/d + 1/2⌋`, on exact
rational arithmetic. -/
def jsRoundDiv (n d : Int) : Int := Int.fdiv (2 * n + d) (2 * d)

/-- Embeds `calculateProgress(agent)`; `now` is the explicit `Date.now()`. -/
def calculateProgress (now : Int) (agent : GkAgent) : Int :=
  if agent.status = .completed then 100
  else if agent.status = .failed then 0
  else
    match agent.startTime with
    | none => 0
    | some start =>
        let elapsed := now - start
        min 100 (jsRoundDiv (elapsed * 100) 120000)

/-- Embeds `generateSpeechBubble(agent)`. -/
def generateSpeechBubble (agent : GkAgent) : Option String :=
  if agent.status = .completed then some "Task complete!"
  else if agent.status = .failed then some "Task failed"
  else
    match (agentSkills agent).head? with
    | some s => some ("Working on " ++ s ++ "...")
    | none => none

/-- The orchestrator-only fields of `OrchestratorAgent`. -/
structure OrchestratorInfo where
  delegatedTo : List String
  totalSubAgents : Nat
  completedSubAgents : Nat
deriving DecidableEq, Repr

/-- Embeds `agentToOfficeAgent(agent, session)`: the base `OfficeAgent` plus the
orchestrator extension when `isOrchestrator` holds. -/
def agentToOfficeAgent (now : Int) (agent : GkAgent) (session : GkSession) :
    OfficeAgent × Option OrchestratorInfo :=
  let isOrch := isOrchestrator agent session
  let hasActiveSkill := decide (agentSkills agent ≠ []) && decide (agent.status = .active)
  let role := if agent.agentRole = "" then "unknown" else agent.agentRole
  let base : OfficeAgent :=
    { id := agent.gkSessionId
      agentType := if isOrch then "orchestrator" else "sub-agent"
      role := role
      characterType := some (getCharacterType role)
      icon := getIconForRole role isOrch
      state := mapStatusToState agent.status hasActiveSkill
      activeSkill := jsOr (agentSkills agent).head? none
      progress := calculateProgress now agent
      speechBubble := generateSpeechBubble agent
      hasFireEffect := hasActiveSkill
      gkSessionId := agent.gkSessionId
      parentSessionId := agent.parentGkSessionId }
  let extra :=
    if isOrch then
      let subAgents := session.agents.filter (fun a => ! isOrchestrator a session)
      some { delegatedTo :=
               (subAgents.filter (fun a => decide (a.status = .active))).map GkAgent.gkSessionId
             totalSubAgents := subAgents.length
             completedSubAgents :=
               (subAgents.filter (fun a => decide (a.status = .completed))).length }
    else none
  (base, extra)

/-- Embeds `InboxItem` record (`types.ts`); `tokenUsage` keeps the
`{input, output}` pair. -/
structure InboxItem where
  id : String
  agentId : String
  agentRole : String
  agentIcon : String
  timestamp : Int
  status : String
  title : String
  preview : String
  fullContent : Option String
  tokenUsage : Option (Int × Int)
  duration : Int
  skillsUsed : List String
deriving DecidableEq, Repr

/-- Embeds `agentToInboxItem(agent)`; `now` is the explicit `Date.now()` used
when the agent has no end time. -/
def agentToInboxItem (now : Int) (agent : GkAgent) : InboxItem :=
  let duration :=
    match agent.endTime, agent.startTime with
    | some e, some s => e - s
    | _, _ => 0
  { id := "inbox-" ++ agent.gkSessionId
    agentId := agent.gkSessionId
    agentRole := if agent.agentRole = "" then "unknown" else agent.agentRole
    agentIcon := getIconForRole agent.agentRole
    timestamp := match agent.endTime with
                 | some e => e
                 | none => now
    status := "unread"
    title := formatDisplayName (if agent.agentRole = "" then "Agent" else agent.agentRole)
             ++ " completed"
    preview := match jsOr agent.prompt none with
               | some p => strTake p 100
               | none => "Task completed"
    fullContent := none
    tokenUsage := agent.tokenUsage.map (fun t => (t.input, t.output))
    duration := duration
    skillsUsed := agentSkills agent }

/-- Embeds `OfficeNotification` record. -/
structure OfficeNotification where
  message : String
  type : String
  timestamp : Int
deriving DecidableEq, Repr

/-- Embeds `OfficeState` projection (`types.ts`); the `agents` `Map` is an
insertion-ordered association list, the `documents` list is kept
abstract as the scanner collaborator owns it. -/
structure OfficeState where
  orchestrator : Option (OfficeAgent × OrchestratorInfo)
  agents : List (String × OfficeAgent)
  sessionId : Option String
  projectDir : Option String
  activePlan : Option String
  appName : Option String
  currentNotification : Option OfficeNotification
  inbox : List InboxItem
  documents : List String
  isActive : Bool
deriving DecidableEq, Repr

/-- Embeds `createInitialState()`. -/
def createInitialState : OfficeState :=
  { orchestrator := none
    agents := []
    sessionId := none
    projectDir := none
    activePlan := none
    appName := none
    currentNotification := none
    inbox := []
    documents := []
    isActive := false }

/-- Embeds `Map.set(k, v)`: update in place when the key exists (keeping its
position), append otherwise. -/
def mapSet (m : List (String × OfficeAgent)) (k : String) (v : OfficeAgent) :
    List (String × OfficeAgent) :=
  if m.any (fun p => decide (p.1 = k)) then
    m.map (fun p => if p.1 = k then (k, v) else p)
  else
    m ++ [(k, v)]

/-- First half of the `for (const agent of session.agents)` loop body of
`sessionToOfficeState`: store the mapped agent as the orchestrator or
into the agents map. -/
def placeAgent (st : OfficeState) (oa : OfficeAgent × Option OrchestratorInfo) :
    OfficeState :=
  match oa.2 with
  | some info => { st with orchestrator := some (oa.1, info) }
  | none => { st with agents := mapSet st.agents oa.1.id oa.1 }

/-- Second half of the loop body: add a completed agent to the inbox
unless an entry with its id already exists. -/
def inboxStep (now : Int) (st : OfficeState) (agent : GkAgent) : OfficeState :=
  if agent.status = .completed then
    if st.inbox.any (fun i => decide (i.agentId = agent.gkSessionId)) then st
    else { st with inbox := st.inbox ++ [agentToInboxItem now agent] }
  else st

/-- The full loop body of `sessionToOfficeState`. -/
def bridgeStep (now : Int) (session : GkSession) (st : OfficeState)
    (agent : GkAgent) : OfficeState :=
  inboxStep now (placeAgent st (agentToOfficeAgent now agent session)) agent

/-- Embeds `state.inbox.sort((a, b) => b.timestamp - a.timestamp)`:
stable sort, descending by timestamp. -/
def sortInbox (inbox : List InboxItem) : List InboxItem :=
  inbox.mergeSort (fun a b => decide (b.timestamp ≤ a.timestamp))

/-- Embeds `sessionToOfficeState(session)`; `now` is the explicit `Date.now()`. -/
def sessionToOfficeState (now : Int) (session : Option GkSession) : OfficeState :=
  match session with
  | none => createInitialState
  | some s =>
      let st0 :=
        { createInitialState with
          sessionId := some s.gkSessionId
          projectDir := some s.projectDir
          activePlan := s.activePlan
          appName := jsOr s.appName none
          isActive := s.agents.any (fun a => decide (a.status = .active)) }
      let st1 := s.agents.foldl (bridgeStep now s) st0
      { st1 with inbox := sortInbox st1.inbox }

/-! ## Broadcast server request handling (`renderer/web/server.ts`)

`handleRequest(req, res)` is modelled as a pure route computation from
the request url to the response status code, together with a flag
recording whether any filesystem call (`existsSync`) was made while
producing the response.  `fsExists` models `existsSync`, `execOk`
whether the `exec` of the open-doc editor command succeeds, and `cwd`
the working directory used by `resolve` (percent-decoding of query
values and absolute-path resolution are elided; no claim depends on
them). -/

/-- The observable outcome of one HTTP request. -/
structure HandledResponse where
  status : Nat
  fsAccessed : Bool
deriving DecidableEq, Repr

/-- The query string of a url: everything after the first `?`, up to `#`
(as read by `new URL(url, base).searchParams`). -/
def urlQuery (url : String) : Option String :=
  match strSplitOnChar '?' url with
  | [] => none
  | [_] => none
  | _ :: rest => some ((strSplitOnChar '#' (joinWithChar '?' rest)).headD "")

/-- Embeds `searchParams.get(key)`: the first `key=value` pair of the query. -/
def getSearchParam (url key : String) : Option String :=
  match urlQuery url with
  | none => none
  | some q =>
      (strSplitOnChar '&' q).findSome? (fun kv =>
        match strSplitOnChar '=' kv with
        | [] => none
        | k :: vs => if k = key then some (joinWithChar '=' vs) else none)

/-- Embeds `handleRequest`: the route dispatch of `OfficeWebServer`. -/
def handleRequest (fsExists : String → Bool) (execOk : Bool) (cwd : String)
    (reqUrl : String) : HandledResponse :=
  let url := if reqUrl = "" then "/" else reqUrl
  if url = "/api/state" then { status := 200, fsAccessed := false }
  else if url = "/api/history" then { status := 200, fsAccessed := false }
  else if strStartsWith url "/api/open-doc" then
    match jsOr (getSearchParam url "path") none with
    | none => { status := 400, fsAccessed := false }
    | some docPath =>
        let fullPath := if fsExists docPath then docPath else cwd ++ "/" ++ docPath
        if ¬ fsExists fullPath then { status := 404, fsAccessed := true }
        else if execOk then { status := 200, fsAccessed := true }
        else { status := 500, fsAccessed := true }
  else
    let urlPath := (strSplitOnChar '#' ((strSplitOnChar '?' url).headD url)).headD url
    if urlPath = "/" ∨ urlPath = "/index.html" then { status := 200, fsAccessed := false }
    else { status := 404, fsAccessed := false }

/-! ## Concrete fixtures (used by witness theorems) -/

/-- An active sub-agent with one injected skill. -/
def fxAgentA : GkAgent :=
  { gkSessionId := "a1"
    parentGkSessionId := some "S"
    agentType := "Sub Agent"
    agentRole := "researcher"
    prompt := some "find stuff"
    tokenUsage := none
    injected := some { skills := ["search"], context := [] }
    startTime := some 0
    endTime := none
    status := .active }

/-- The same sub-agent, already completed. -/
def fxAgentADone : GkAgent :=
  { fxAgentA with status := .completed, endTime := some 5000 }

/-- A distinct active agent with no skills. -/
def fxAgentB : GkAgent :=
  { gkSessionId := "b1"
    parentGkSessionId := some "S"
    agentType := "Sub Agent"
    agentRole := "coder"
    prompt := none
    tokenUsage := none
    injected := none
    startTime := some 0
    endTime := none
    status := .active }

/-- Previous snapshot: only agent `b1`, active. -/
def fxPrev : GkSession :=
  { gkSessionId := "S"
    projectDir := "/p"
    activePlan := none
    appName := none
    agents := [fxAgentB] }

/-- Current snapshot: only agent `a1`, first observed already completed. -/
def fxCurr : GkSession :=
  { fxPrev with agents := [fxAgentADone] }

/-- An idle office agent view. -/
def fxOfficeIdle : OfficeAgent :=
  { id := "a1"
    agentType := "sub-agent"
    role := "researcher"
    characterType := none
    icon := "🤖"
    state := .idle
    activeSkill := none
    progress := 0
    speechBubble := none
    hasFireEffect := false
    gkSessionId := "a1"
    parentSessionId := none }

/-- A `delivering` event aimed at the idle agent. -/
def fxEvDelivering : OfficeEvent :=
  { type := .delivering
    agentId := "a1"
    targetAgentId := none
    skill := none
    message := "Delivering results..."
    timestamp := 1
    characterType := none }

/-- A `skill_activated` event carrying skill `x`. -/
def fxEvSkill : OfficeEvent :=
  { fxEvDelivering with type := .skill_activated, skill := some "x" }

/-- A fixed event with timestamp 0, for exercising the history. -/
def fxEvZero : OfficeEvent :=
  { fxEvDelivering with timestamp := 0 }

/-- An active agent whose recorded start time lies in the future
relative to the clock value 0. -/
def fxAgentFuture : GkAgent :=
  { fxAgentB with gkSessionId := "f1", startTime := some 240000 }

/-! ## Supporting lemmas -/

@[simp] theorem createEvent_type (t : OfficeEventType) (a : GkAgent) (ts : Int)
    (sk : Option String) : (createEvent t a ts sk).type = t := rfl

@[simp] theorem createEvent_agentId (t : OfficeEventType) (a : GkAgent) (ts : Int)
    (sk : Option String) : (createEvent t a ts sk).agentId = a.gkSessionId := rfl

@[simp] theorem createEvent_timestamp (t : OfficeEventType) (a : GkAgent) (ts : Int)
    (sk : Option String) : (createEvent t a ts sk).timestamp = ts := rfl

@[simp] theorem sessionCompleteEvent_type (curr : GkSession) (ts : Int) :
    (sessionCompleteEvent curr ts).type = .session_complete := rfl

@[simp] theorem sessionCompleteEvent_agentId (curr : GkSession) (ts : Int) :
    (sessionCompleteEvent curr ts).agentId = curr.gkSessionId := rfl

@[simp] theorem sessionCompleteEvent_timestamp (curr : GkSession) (ts : Int) :
    (sessionCompleteEvent curr ts).timestamp = ts := rfl

/-- Everything the per-agent loop of `diffSessions` guarantees about one
of its events: the call-time stamp, the owning agent's id, a type other
than `session_complete`, and `task_complete` only for agents that were
present in the previous snapshot. -/
theorem agentDiffEvents_spec {look : String → Option GkAgent} {ts : Int}
    {a : GkAgent} {e : OfficeEvent} (h : e ∈ agentDiffEvents look ts a) :
    e.timestamp = ts ∧ e.agentId = a.gkSessionId ∧ e.type ≠ .session_complete ∧
    (e.type = .task_complete → (look a.gkSessionId).isSome = true) := by
  unfold agentDiffEvents at h
  cases hl : look a.gkSessionId with
  | none =>
      rw [hl] at h
      rcases List.mem_cons.1 h with rfl | h2
      · refine ⟨rfl, rfl, by simp, by simp⟩
      · by_cases hs : agentSkills a ≠ []
        · rw [if_pos hs] at h2
          rcases List.mem_singleton.1 h2 with rfl
          exact ⟨rfl, rfl, by simp, by simp⟩
        · rw [if_neg hs] at h2
          exact absurd h2 (List.not_mem_nil e)
  | some pa =>
      rw [hl] at h
      rcases List.mem_append.1 h with h1 | h2
      · by_cases hp : pa.status = .active ∧ a.status = .completed
        · rw [if_pos hp] at h1
          rcases List.mem_cons.1 h1 with rfl | h1'
          · exact ⟨rfl, rfl, by simp, by simp⟩
          · rcases List.mem_singleton.1 h1' with rfl
            exact ⟨rfl, rfl, by simp, by simp⟩
        · rw [if_neg hp] at h1
          exact absurd h1 (List.not_mem_nil e)
      · rcases List.mem_map.1 h2 with ⟨s, _, rfl⟩
        exact ⟨rfl, rfl, by simp, by simp⟩

/-- Membership in a diff result, unfolded: an event comes from the
per-agent loop of some current agent, or it is the trailing
`session_complete` event and the completion guard held. -/
theorem mem_diffSessions_iff {ts : Int} {prev curr : GkSession} {e : OfficeEvent} :
    e ∈ diffSessions ts prev curr ↔
      ((∃ a ∈ curr.agents, e ∈ agentDiffEvents (prevLookup prev) ts a) ∨
       (e = sessionCompleteEvent curr ts ∧ sessionJustCompleted prev curr = true)) := by
  unfold diffSessions
  cases hc : sessionJustCompleted prev curr with
  | true =>
      simp only [if_true, List.mem_append, List.mem_flatMap, List.mem_singleton]
      constructor
      · rintro (h | h)
        · exact Or.inl h
        · exact Or.inr ⟨h, by simp⟩
      · rintro (h | ⟨h, _⟩)
        · exact Or.inl h
        · exact Or.inr h
  | false =>
      simp only [Bool.false_eq_true, if_false, List.mem_flatMap]
      constructor
      · exact fun h => Or.inl h
      · rintro (h | ⟨_, hfalse⟩)
        · exact h
        · exact absurd hfalse (by simp)

/-- The completion guard, as a proposition about the two snapshots. -/
theorem sessionJustCompleted_iff {prev curr : GkSession} :
    sessionJustCompleted prev curr = true ↔
      ((∃ a ∈ prev.agents, a.status = .active) ∧
       (∀ a ∈ curr.agents, a.status ≠ .active) ∧ curr.agents ≠ []) := by
  unfold sessionJustCompleted
  simp only [Bool.and_eq_true, List.all_eq_true, List.any_eq_true,
    Bool.or_eq_true, decide_eq_true_eq, gt_iff_lt, List.length_pos]
  constructor
  · rintro ⟨⟨hall, hsome⟩, hne⟩
    refine ⟨hsome, fun a ha => ?_, hne⟩
    rcases hall a ha with h | h <;> simp [h]
  · rintro ⟨hsome, hnone, hne⟩
    refine ⟨⟨fun a ha => ?_, hsome⟩, hne⟩
    cases hs : a.status with
    | active => exact absurd hs (hnone a ha)
    | completed => simp
    | failed => simp

/-- C2: the diff engine is deterministic — two calls on the same
snapshot pair whose entry clock reads coincide return identical event
lists, and every returned event (timestamps included) carries exactly
that entry clock reading, so no other source of variation exists. -/
theorem diffSessions_deterministic (prev curr : GkSession) (ts₁ ts₂ : Int)
    (h : ts₁ = ts₂) :
    diffSessions ts₁ prev curr = diffSessions ts₂ prev curr ∧
      ∀ e ∈ diffSessions ts₁ prev curr, e.timestamp = ts₁ := by
  subst h
  refine ⟨rfl, fun e he => ?_⟩
  rcases mem_diffSessions_iff.1 he with ⟨a, _, hmem⟩ | ⟨rfl, _⟩
  · exact (agentDiffEvents_spec hmem).1
  · rfl

/-- Witness for C2 on concrete snapshots. -/
theorem diffSessions_deterministic_witness :
    diffSessions 5 fxPrev fxCurr = diffSessions 5 fxPrev fxCurr ∧
      ∀ e ∈ diffSessions 5 fxPrev fxCurr, e.timestamp = 5 :=
  diffSessions_deterministic fxPrev fxCurr 5 5 rfl

/-- No per-agent event of a diff is a `session_complete` event. -/
theorem perAgent_countP_session_complete (ts : Int) (prev curr : GkSession) :
    (curr.agents.flatMap (agentDiffEvents (prevLookup prev) ts)).countP
      (fun e => decide (e.type = OfficeEventType.session_complete)) = 0 := by
  rw [List.countP_eq_zero]
  intro e he
  rcases List.mem_flatMap.1 he with ⟨a, _, hmem⟩
  simpa using (agentDiffEvents_spec hmem).2.2.1

/-- C3: the diff output contains a `session_complete` event iff the
previous snapshot had an active agent, the current one has none, and
the current one is non-empty; and the output never contains more than
one such event. -/
theorem diffSessions_session_complete_iff (ts : Int) (prev curr : GkSession) :
    ((∃ e ∈ diffSessions ts prev curr, e.type = .session_complete) ↔
      ((∃ a ∈ prev.agents, a.status = .active) ∧
       (∀ a ∈ curr.agents, a.status ≠ .active) ∧ curr.agents ≠ [])) ∧
    (diffSessions ts prev curr).countP
      (fun e => decide (e.type = OfficeEventType.session_complete)) ≤ 1 := by
  constructor
  · constructor
    · rintro ⟨e, he, htype⟩
      rcases mem_diffSessions_iff.1 he with ⟨a, _, hmem⟩ | ⟨_, hguard⟩
      · exact absurd htype (agentDiffEvents_spec hmem).2.2.1
      · exact sessionJustCompleted_iff.1 hguard
    · intro hcond
      exact ⟨sessionCompleteEvent curr ts,
        mem_diffSessions_iff.2 (Or.inr ⟨rfl, sessionJustCompleted_iff.2 hcond⟩), rfl⟩
  · unfold diffSessions
    cases sessionJustCompleted prev curr with
    | true =>
        simp [List.countP_append, perAgent_countP_session_complete ts prev curr,
          List.countP_cons]
    | false =>
        simp [perAgent_countP_session_complete ts prev curr]

/-- Witness for C3 on concrete snapshots. -/
theorem diffSessions_session_complete_iff_witness :
    (diffSessions 5 fxPrev fxCurr).countP
      (fun e => decide (e.type = OfficeEventType.session_complete)) ≤ 1 :=
  (diffSessions_session_complete_iff 5 fxPrev fxCurr).2

/-- The previous-agent lookup misses exactly when no previous agent has
the id. -/
theorem prevLookup_eq_none {prev : GkSession} {id : String}
    (h : ∀ p ∈ prev.agents, p.gkSessionId ≠ id) :
    prevLookup prev id = none := by
  unfold prevLookup
  rw [List.find?_eq_none]
  intro x hx
  simpa using h x (List.mem_reverse.1 hx)

/-- C6: an agent first observed already completed yields a
`received_work` event and never a `task_complete` event (and the diff,
being a total function, cannot throw). -/
theorem new_completed_agent_events (ts : Int) (prev curr : GkSession) (a : GkAgent)
    (ha : a ∈ curr.agents)
    (hnew : ∀ p ∈ prev.agents, p.gkSessionId ≠ a.gkSessionId)
    (_hdone : a.status = .completed) :
    (∃ e ∈ diffSessions ts prev curr,
        e.type = .received_work ∧ e.agentId = a.gkSessionId) ∧
    (∀ e ∈ diffSessions ts prev curr,
        e.type = .task_complete → e.agentId ≠ a.gkSessionId) := by
  have hlook : prevLookup prev a.gkSessionId = none := prevLookup_eq_none hnew
  constructor
  · refine ⟨createEvent .received_work a ts none, ?_, rfl, rfl⟩
    refine mem_diffSessions_iff.2 (Or.inl ⟨a, ha, ?_⟩)
    unfold agentDiffEvents
    rw [hlook]
    exact List.mem_cons_self _ _
  · intro e he htc
    rcases mem_diffSessions_iff.1 he with ⟨b, _, hmem⟩ | ⟨rfl, _⟩
    · have hspec := agentDiffEvents_spec hmem
      have hsome := hspec.2.2.2 htc
      intro heq
      rw [hspec.2.1] at heq
      rw [heq, hlook] at hsome
      simp at hsome
    · simp at htc

/-- Witness for C6: agent `a1` first appears already completed. -/
theorem new_completed_agent_events_witness :
    (∃ e ∈ diffSessions 7 fxPrev fxCurr,
        e.type = .received_work ∧ e.agentId = fxAgentADone.gkSessionId) ∧
    (∀ e ∈ diffSessions 7 fxPrev fxCurr,
        e.type = .task_complete → e.agentId ≠ fxAgentADone.gkSessionId) :=
  new_completed_agent_events 7 fxPrev fxCurr fxAgentADone (by decide) (by decide)
    (by decide)

/-- C10: every diff event is the trailing `session_complete` event
(carrying the current session's id) or carries the id of an agent of
the current snapshot; in particular an agent removed from the snapshot
(whose id is not reused) generates no events. -/
theorem diff_events_reference_current (ts : Int) (prev curr : GkSession) :
    (∀ e ∈ diffSessions ts prev curr,
        (e.type = .session_complete ∧ e.agentId = curr.gkSessionId) ∨
        ∃ a ∈ curr.agents, e.agentId = a.gkSessionId) ∧
    (∀ p ∈ prev.agents,
        (∀ a ∈ curr.agents, a.gkSessionId ≠ p.gkSessionId) →
        p.gkSessionId ≠ curr.gkSessionId →
        ∀ e ∈ diffSessions ts prev curr, e.agentId ≠ p.gkSessionId) := by
  have hmain : ∀ e ∈ diffSessions ts prev curr,
      (e.type = .session_complete ∧ e.agentId = curr.gkSessionId) ∨
      ∃ a ∈ curr.agents, e.agentId = a.gkSessionId := by
    intro e he
    rcases mem_diffSessions_iff.1 he with ⟨a, ha, hmem⟩ | ⟨rfl, _⟩
    · exact Or.inr ⟨a, ha, (agentDiffEvents_spec hmem).2.1⟩
    · exact Or.inl ⟨rfl, rfl⟩
  refine ⟨hmain, ?_⟩
  intro p _ hnc hns e he heq
  rcases hmain e he with ⟨_, hid⟩ | ⟨a, ha, hid⟩
  · have hpc : p.gkSessionId = curr.gkSessionId := by rw [← heq, hid]
    exact hns hpc
  · have hap : a.gkSessionId = p.gkSessionId := by rw [← hid, heq]
    exact hnc a ha hap

/-- Witness for C10 at the concrete `received_work` event of a diff. -/
theorem diff_events_reference_current_witness :
    ((createEvent .received_work fxAgentADone 7 none).type = .session_complete ∧
      (createEvent .received_work fxAgentADone 7 none).agentId = fxCurr.gkSessionId) ∨
    ∃ a ∈ fxCurr.agents,
      (createEvent .received_work fxAgentADone 7 none).agentId = a.gkSessionId :=
  (diff_events_reference_current 7 fxPrev fxCurr).1
    (createEvent .received_work fxAgentADone 7 none) (by decide)

/-- C1 (code versus claim): `GET /../package.json` is answered with 404,
not 403 — `handleRequest` has no traversal branch at all — and a
parent-directory path under `/api/open-doc` can even reach the
filesystem and answer 200.  (No filesystem access happens for the plain
traversal path, but the promised 403 does not exist.) -/
theorem traversal_request_gets_404 :
    (handleRequest (fun _ => false) true "" "/../package.json").status = 404 ∧
    (handleRequest (fun _ => false) true "" "/../package.json").status ≠ 403 ∧
    (handleRequest (fun _ => false) true "" "/../package.json").fsAccessed = false ∧
    (handleRequest (fun _ => false) true "" "/../../package.json").status = 404 ∧
    (handleRequest (fun _ => true) true "" "/api/open-doc/../x?path=p").status = 200 ∧
    (handleRequest (fun _ => true) true "" "/api/open-doc/../x?path=p").fsAccessed = true := by
  decide

/-- The emitted history never grows beyond the capacity. -/
theorem emitHistory_length_le {h : List OfficeEvent} (e : OfficeEvent)
    (hle : h.length ≤ MAX_HISTORY_SIZE) :
    (emitHistory h e).length ≤ MAX_HISTORY_SIZE := by
  unfold emitHistory
  have hlen : (h ++ [e]).length = h.length + 1 := by simp
  by_cases hgt : (h ++ [e]).length > MAX_HISTORY_SIZE
  · rw [if_pos hgt]
    rw [List.length_tail]
    omega
  · rw [if_neg hgt]
    omega

/-- One emit step, as a drop: pushing onto a history of at most 1000
entries keeps the suffix of the last 1000 entries. -/
theorem emitHistory_eq_drop {h : List OfficeEvent} (e : OfficeEvent)
    (hle : h.length ≤ MAX_HISTORY_SIZE) :
    emitHistory h e = (h ++ [e]).drop ((h ++ [e]).length - MAX_HISTORY_SIZE) := by
  unfold emitHistory
  by_cases hgt : (h ++ [e]).length > MAX_HISTORY_SIZE
  · rw [if_pos hgt]
    have hlen : (h ++ [e]).length = h.length + 1 := by simp
    have : (h ++ [e]).length - MAX_HISTORY_SIZE = 1 := by omega
    rw [this, List.drop_one]
  · rw [if_neg hgt]
    have : (h ++ [e]).length - MAX_HISTORY_SIZE = 0 := by omega
    rw [this, List.drop_zero]

set_option maxRecDepth 4000 in
/-- Folding `emitHistory` from any in-capacity history keeps exactly the
trailing 1000 entries of the concatenation. -/
theorem foldl_emitHistory_eq_drop (es : List OfficeEvent) :
    ∀ h : List OfficeEvent, h.length ≤ MAX_HISTORY_SIZE →
      es.foldl emitHistory h = (h ++ es).drop ((h ++ es).length - MAX_HISTORY_SIZE) := by
  induction es with
  | nil =>
      intro h hle
      simp only [List.foldl_nil, List.append_nil]
      have : h.length - MAX_HISTORY_SIZE = 0 := by omega
      rw [this, List.drop_zero]
  | cons e es ih =>
      intro h hle
      rw [List.foldl_cons, ih (emitHistory h e) (emitHistory_length_le e hle),
        emitHistory_eq_drop e hle]
      have hd : (h ++ [e]).length - MAX_HISTORY_SIZE ≤ (h ++ [e]).length := by omega
      rw [← List.drop_append_of_le_length hd, List.drop_drop,
        show h ++ e :: es = (h ++ [e]) ++ es from by simp]
      refine congrArg (fun n => List.drop n ((h ++ [e]) ++ es)) ?_
      simp only [List.length_drop, List.length_append, List.length_cons]
      omega

/-- The history of a fresh emitter after a burst of emits: the trailing
1000 events. -/
theorem runEmits_eq_drop (es : List OfficeEvent) :
    runEmits es = es.drop (es.length - MAX_HISTORY_SIZE) := by
  unfold runEmits
  rw [foldl_emitHistory_eq_drop es [] (by simp [MAX_HISTORY_SIZE])]
  simp

/-- C4: the event history never exceeds 1000 entries; pushing onto a
full history evicts exactly the oldest entry; and after emitting 1100
events with non-negative timestamps, `replay(0)` returns exactly the
most recent 1000 (the oldest 100 are gone). -/
theorem eventHistory_bounded (es : List OfficeEvent) (h : List OfficeEvent)
    (e : OfficeEvent) (hts : ∀ x ∈ es, 0 ≤ x.timestamp) :
    (runEmits es).length ≤ 1000 ∧
    (h.length = 1000 → emitHistory h e = h.tail ++ [e]) ∧
    (es.length = 1100 →
      (runEmits es).length = 1000 ∧ replayHistory (runEmits es) 0 = es.drop 100) := by
  refine ⟨?_, ?_, ?_⟩
  · rw [runEmits_eq_drop, List.length_drop]
    unfold MAX_HISTORY_SIZE
    omega
  · intro hfull
    unfold emitHistory
    have hgt : (h ++ [e]).length > MAX_HISTORY_SIZE := by
      simp [hfull, MAX_HISTORY_SIZE]
    rw [if_pos hgt]
    have hne : h ≠ [] := by
      intro hnil
      rw [hnil] at hfull
      simp at hfull
    cases h with
    | nil => exact absurd rfl hne
    | cons a t => simp
  · intro hlen
    have hdrop : runEmits es = es.drop 100 := by
      rw [runEmits_eq_drop, hlen]
      rfl
    refine ⟨?_, ?_⟩
    · rw [hdrop, List.length_drop, hlen]
    · rw [hdrop]
      unfold replayHistory
      rw [List.filter_eq_self.2]
      intro x hx
      have := hts x (List.mem_of_mem_drop hx)
      simpa using this

/-- Witness for C4: 1100 copies of a timestamp-0 event. -/
theorem eventHistory_bounded_witness :
    (runEmits (List.replicate 1100 fxEvZero)).length ≤ 1000 ∧
    ((List.replicate 1000 fxEvZero).length = 1000 →
      emitHistory (List.replicate 1000 fxEvZero) fxEvZero
        = (List.replicate 1000 fxEvZero).tail ++ [fxEvZero]) ∧
    ((List.replicate 1100 fxEvZero).length = 1100 →
      (runEmits (List.replicate 1100 fxEvZero)).length = 1000 ∧
      replayHistory (runEmits (List.replicate 1100 fxEvZero)) 0
        = (List.replicate 1100 fxEvZero).drop 100) :=
  eventHistory_bounded (List.replicate 1100 fxEvZero) (List.replicate 1000 fxEvZero)
    fxEvZero (by
      intro x hx
      rw [List.eq_of_mem_replicate hx]
      exact le_refl 0)

/-- C5: within one watcher tick that parses successfully against a
previous snapshot, every event callback is preceded in the tick's
callback sequence by the session-change callback carrying the freshly
parsed snapshot — so event consumers always observe the already-updated
projection. -/
theorem projection_published_before_events (ts : Int) (prev s : GkSession)
    (i : Nat) (e : OfficeEvent)
    (h : ((loadSessionTick ts (some prev) (some s)).2).get? i
        = some (WatcherCallback.officeEvent e)) :
    ∃ j, j < i ∧ ((loadSessionTick ts (some prev) (some s)).2).get? j
        = some (WatcherCallback.sessionChange s) := by
  cases i with
  | zero => simp [loadSessionTick] at h
  | succ n => exact ⟨0, Nat.succ_pos n, rfl⟩

/-- Witness for C5: the first derived event of a concrete tick sits
after the session-change callback. -/
theorem projection_published_before_events_witness :
    ((loadSessionTick 7 (some fxPrev) (some fxCurr)).2).get? 1
        = some (WatcherCallback.officeEvent (createEvent .received_work fxAgentADone 7 none)) ∧
    ∃ j, j < 1 ∧ ((loadSessionTick 7 (some fxPrev) (some fxCurr)).2).get? j
        = some (WatcherCallback.sessionChange fxCurr) :=
  ⟨by decide,
   projection_published_before_events 7 fxPrev fxCurr 1
     (createEvent .received_work fxAgentADone 7 none) (by decide)⟩

/-- C7: the transition table silently ignores `idle → delivering`; an
idle agent receiving `skill_activated` with a skill moves to `working`
with that active skill and the fire-effect highlight; and any event with
no mapped destination, or whose destination is not legal from the
current state, leaves the view unchanged. -/
theorem transitionAgent_table :
    (∀ (agent : OfficeAgent) (ev : OfficeEvent),
        agent.state = .idle → ev.type = .delivering →
        transitionAgent agent ev = agent) ∧
    (∀ (agent : OfficeAgent) (ev : OfficeEvent) (s : String),
        agent.state = .idle → ev.type = .skill_activated → ev.skill = some s →
        (transitionAgent agent ev).state = .working ∧
        (transitionAgent agent ev).activeSkill = some s ∧
        (transitionAgent agent ev).hasFireEffect = true) ∧
    (∀ (agent : OfficeAgent) (ev : OfficeEvent),
        eventStateMap ev.type = none → transitionAgent agent ev = agent) ∧
    (∀ (agent : OfficeAgent) (ev : OfficeEvent) (s : AgentState),
        eventStateMap ev.type = some s → isValidTransition agent.state s = false →
        transitionAgent agent ev = agent) := by
  refine ⟨?_, ?_, ?_, ?_⟩
  · intro agent ev hst hty
    unfold transitionAgent
    rw [hty, hst]
    simp [eventStateMap, isValidTransition, VALID_TRANSITIONS]
  · intro agent ev s hst hty hsk
    unfold transitionAgent
    rw [hty, hst, hsk]
    simp [eventStateMap, isValidTransition, VALID_TRANSITIONS, jsNullish]
  · intro agent ev hmap
    unfold transitionAgent
    rw [hmap]
  · intro agent ev s hmap hinv
    unfold transitionAgent
    rw [hmap]
    dsimp only
    rw [hinv]
    simp

/-- Witness for C7: the concrete idle agent ignores `delivering`. -/
theorem transitionAgent_table_witness :
    transitionAgent fxOfficeIdle fxEvDelivering = fxOfficeIdle :=
  transitionAgent_table.1 fxOfficeIdle fxEvDelivering rfl rfl

/-- C9, counterexample to the claim as stated: an active agent whose
start time is in the future of the clock gets a negative progress value
(`Math.min` only clamps from above). -/
theorem calculateProgress_negative_counterexample :
    calculateProgress 0 fxAgentFuture = -200 ∧
    ¬ (0 ≤ calculateProgress 0 fxAgentFuture ∧ calculateProgress 0 fxAgentFuture ≤ 100) := by
  decide

/-- C9, amended: `completed` agents report 100, `failed` agents 0,
active agents without a start time 0, and active agents whose start
time does not postdate the clock get the interpolated value, which then
lies within [0, 100]. -/
theorem calculateProgress_range (now : Int) (agent : GkAgent) :
    (agent.status = .completed → calculateProgress now agent = 100) ∧
    (agent.status = .failed → calculateProgress now agent = 0) ∧
    (agent.status = .active → agent.startTime = none → calculateProgress now agent = 0) ∧
    (∀ start : Int, agent.status = .active → agent.startTime = some start →
      start ≤ now →
      0 ≤ calculateProgress now agent ∧ calculateProgress now agent ≤ 100 ∧
      calculateProgress now agent = min 100 (jsRoundDiv ((now - start) * 100) 120000)) := by
  refine ⟨?_, ?_, ?_, ?_⟩
  · intro h
    simp [calculateProgress, h]
  · intro h
    simp [calculateProgress, h]
  · intro h hst
    simp [calculateProgress, h, hst]
  · intro start h hst hle
    have hc : calculateProgress now agent
        = min 100 (jsRoundDiv ((now - start) * 100) 120000) := by
      simp [calculateProgress, h, hst]
    refine ⟨?_, ?_, hc⟩
    · rw [hc]
      have h0 : (0 : Int) ≤ jsRoundDiv ((now - start) * 100) 120000 := by
        unfold jsRoundDiv
        apply Int.fdiv_nonneg
        · nlinarith
        · norm_num
      exact le_min (by norm_num) h0
    · rw [hc]
      exact min_le_left _ _

/-- Witness for the amended C9 on a concrete active agent halfway
through the assumed duration. -/
theorem calculateProgress_range_witness :
    0 ≤ calculateProgress 60000 fxAgentA ∧ calculateProgress 60000 fxAgentA ≤ 100 ∧
    calculateProgress 60000 fxAgentA
      = min 100 (jsRoundDiv ((60000 - 0) * 100) 120000) :=
  (calculateProgress_range 60000 fxAgentA).2.2.2 0 rfl rfl (by norm_num)

@[simp] theorem agentToInboxItem_agentId (now : Int) (a : GkAgent) :
    (agentToInboxItem now a).agentId = a.gkSessionId := rfl

/-- Placing an office agent never touches the inbox. -/
theorem placeAgent_inbox (st : OfficeState)
    (oa : OfficeAgent × Option OrchestratorInfo) :
    (placeAgent st oa).inbox = st.inbox := by
  rcases oa with ⟨b, info⟩
  cases info <;> rfl

/-- The inbox step keeps at most one entry per agent id. -/
theorem inboxStep_countP (now : Int) (st : OfficeState) (agent : GkAgent)
    (aid : String)
    (hinv : st.inbox.countP (fun i => decide (i.agentId = aid)) ≤ 1) :
    ((inboxStep now st agent).inbox.countP (fun i => decide (i.agentId = aid))) ≤ 1 := by
  unfold inboxStep
  by_cases hc : agent.status = .completed
  · rw [if_pos hc]
    by_cases hin : st.inbox.any (fun i => decide (i.agentId = agent.gkSessionId)) = true
    · rw [if_pos hin]
      exact hinv
    · rw [if_neg hin]
      simp only [List.countP_append]
      have hin' : ∀ x ∈ st.inbox, ¬ x.agentId = agent.gkSessionId := by
        simpa using hin
      by_cases hid : aid = agent.gkSessionId
      · have h0 : st.inbox.countP (fun i => decide (i.agentId = aid)) = 0 := by
          rw [List.countP_eq_zero]
          intro x hx
          simp only [decide_eq_true_eq]
          rw [hid]
          exact hin' x hx
        have h1 : List.countP (fun i => decide (i.agentId = aid))
            [agentToInboxItem now agent] = 1 := by
          simp [List.countP_cons, hid]
        rw [h0, h1]
      · have h1 : List.countP (fun i => decide (i.agentId = aid))
            [agentToInboxItem now agent] = 0 := by
          simp only [List.countP_cons, List.countP_nil, agentToInboxItem_agentId]
          simp only [decide_eq_true_eq]
          rw [if_neg (fun hEq => hid hEq.symm)]
        rw [h1]
        simpa using hinv
  · rw [if_neg hc]
    exact hinv

/-- Folding the mapper loop keeps at most one inbox entry per agent id. -/
theorem foldl_bridgeStep_countP (now : Int) (s : GkSession) (aid : String) :
    ∀ (agents : List GkAgent) (st : OfficeState),
      st.inbox.countP (fun i => decide (i.agentId = aid)) ≤ 1 →
      ((agents.foldl (bridgeStep now s) st).inbox.countP
        (fun i => decide (i.agentId = aid))) ≤ 1 := by
  intro agents
  induction agents with
  | nil => exact fun st hinv => hinv
  | cons a rest ih =>
      intro st hinv
      rw [List.foldl_cons]
      apply ih
      unfold bridgeStep
      apply inboxStep_countP
      rw [placeAgent_inbox]
      exact hinv

/-- C8: the projection mapper produces at most one inbox entry per agent
id — the dedup check makes inbox generation idempotent, so re-mapping a
snapshot that contains a completed agent (even listed twice) never
yields two entries for it. -/
theorem inbox_dedup (now : Int) (session : Option GkSession) (aid : String) :
    ((sessionToOfficeState now session).inbox.countP
      (fun i => decide (i.agentId = aid))) ≤ 1 := by
  cases session with
  | none => simp [sessionToOfficeState, createInitialState]
  | some s =>
      unfold sessionToOfficeState
      dsimp only
      unfold sortInbox
      rw [(List.mergeSort_perm _ _).countP_eq]
      apply foldl_bridgeStep_countP
      simp [createInitialState]

end AgentOffice
